import Mathlib

/-!
# Verification of the Split Storage engine and adapter

A shallow embedding of the two core components of the
`splitio/cloudflare-workers-template` repository:

* the Durable Object storage engine `SplitStorage` (`src/SplitStorage.ts`):
  a `fetch` handler that dispatches on the request's URL pathname and
  executes key/value, integer, set and (stubbed) queue operations against
  the Durable Object's transactional storage, and
* the client-side adapter `SplitStorageWrapper`
  (`src/SplitStorageWrapper.ts`): one function per engine operation that
  encodes the arguments into a request (query parameters and a
  JSON-encoded body), dispatches it to the engine, and decodes the typed
  result from the JSON response body.

The Durable Object storage is modelled as an association list from string
keys to stored JavaScript values (strings, numbers, and `Set<string>`
objects).  JavaScript truthiness (`""` and `0` are falsy, every object is
truthy) is modelled explicitly, because the engine uses `|| null`,
`cond ? a : b` and `if (x)` coercions on stored values.
-/

/-- A JavaScript value as stored in the Durable Object storage by the
engine: a string (`/set`, `/getAndSet`), a number (`/incr`, `/decr`), or a
`Set<string>` (`/addItems`, `/removeItems`).  A JS `Set` keeps insertion
order and holds no duplicates; it is modelled as the list of its members in
insertion order. -/
inductive StorageValue where
  | str (s : String)
  | num (n : Int)
  | set (xs : List String)
deriving DecidableEq, Repr

/-- JavaScript truthiness of a stored value: `""` and `0` are falsy, every
object (in particular every `Set`, even an empty one) is truthy. -/
def StorageValue.truthy : StorageValue → Bool
  | .str s => !(s == "")
  | .num n => !(n == 0)
  | .set _ => true

/-- The private storage of one Durable Object instance: a flat map from
string keys to stored values, modelled as an association list with unique
keys (later bindings never shadow earlier ones because `put` replaces in
place). -/
abbrev Storage := List (String × StorageValue)

/-- Engine storage read `this.storage.get(key)`: the value stored at `key`, or `none` when the
key is absent (JS `undefined`). -/
def Storage.get : Storage → String → Option StorageValue
  | [], _ => none
  | (k₁, v₁) :: t, k => if k₁ = k then some v₁ else Storage.get t k

/-- Engine storage write `this.storage.put(key, value)`: store `value` at `key`, replacing any
previous value. -/
def Storage.put : Storage → String → StorageValue → Storage
  | [], k, v => [(k, v)]
  | (k₁, v₁) :: t, k, v =>
      if k₁ = k then (k, v) :: t else (k₁, v₁) :: Storage.put t k v

/-- Engine storage delete `this.storage.delete(key)`: remove the entry at `key` if present. -/
def Storage.del (s : Storage) (k : String) : Storage :=
  s.filter (fun p => !(p.1 == k))

/-- The JS expression `x || null` (also the guard `x ? … : …` / `if (x)`)
applied to the result of a storage read: a falsy stored value (empty
string, zero) collapses to `null`, exactly as an absent key does. -/
def jsOrNull : Option StorageValue → Option StorageValue
  | some v => if v.truthy then some v else none
  | none => none

/-- JS `result.add(x)` on a `Set`: append `x` unless already a member. -/
def setAddOne (xs : List String) (x : String) : List String :=
  if x ∈ xs then xs else xs ++ [x]

/-- The engine's `for` loop adding each posted item to the set. -/
def setAddAll (xs items : List String) : List String :=
  items.foldl setAddOne xs

/-- The engine's `for` loop deleting each posted item from the set
(`result.delete(x)`). -/
def setDelAll (xs items : List String) : List String :=
  items.foldl (fun acc x => acc.filter (fun y => !(y == x))) xs

/-- A JSON value appearing in a response body, as produced by the engine's
`JSON.stringify(result)`.  `emptyObj` is what `JSON.stringify` yields for a
JS `Set` object (`"{}"`): it arises only on the type-mismatch paths that
the spec (§3) declares undefined behavior. -/
inductive ResultValue where
  | nullv
  | str (s : String)
  | num (n : Int)
  | boolv (b : Bool)
  | emptyObj
  | arr (xs : List ResultValue)

/-- Serialization `JSON.stringify` of a read result that is a stored value. -/
def StorageValue.toResult : StorageValue → ResultValue
  | .str s => .str s
  | .num n => .num n
  | .set _ => .emptyObj

/-- Serialization `JSON.stringify(value-or-null)`. -/
def toResultOrNull : Option StorageValue → ResultValue
  | some v => v.toResult
  | none => .nullv

/-- The engine's HTTP response: `notFound` is the 404 "Not found" response
of the default switch case; `ok` is the 200 response built at the end of
`fetch`, whose body is the JSON-encoded `result` when `result` is not
`undefined`, and empty otherwise. -/
inductive Response where
  | ok (body : Option ResultValue)
  | notFound

/-- The adapter's `response.ok`. -/
def Response.isOk : Response → Bool
  | .ok _ => true
  | .notFound => false

/-- The JSON body of a POST request, as decoded by the engine's
`request.json<T>()`: the adapter sends a JSON string for `/set` and
`/getAndSet`, and a JSON array of strings for `/addItems` and
`/removeItems`; GET-style requests carry no body. -/
inductive ReqBody where
  | none
  | str (s : String)
  | items (xs : List String)
deriving DecidableEq, Repr

/-- A request as the engine reads it: the URL pathname (the operation
selector) and the query parameters `key`, `prefix` (field `pfx`), `keys`
and `item` used by the individual cases, plus the optional JSON body. -/
structure Request where
  pathname : String
  key : String := ""
  pfx : String := ""
  keys : String := ""
  item : String := ""
  body : ReqBody := .none

/-- JS `s.split(",")` on the character list of a string: split at every
comma; the result always has one more part than there are commas (so it is
never empty, and `"".split(",")` is `[""]`). -/
def splitCommaChars : List Char → List (List Char)
  | [] => [[]]
  | c :: rest =>
      match splitCommaChars rest with
      | [] => [[]]
      | h :: t => if c = ',' then [] :: h :: t else (c :: h) :: t

/-- JS `keys.join(",")` on character lists: interleave a comma between
consecutive parts. -/
def joinCommaChars : List (List Char) → List Char
  | [] => []
  | [x] => x
  | x :: y :: t => x ++ ',' :: joinCommaChars (y :: t)

/-- The engine's `url.searchParams.get("keys")!.split(",")`. -/
def splitComma (s : String) : List String :=
  (splitCommaChars s.data).map String.mk

/-- The adapter's `keys.join(",")`. -/
def joinComma (ks : List String) : String :=
  String.mk (joinCommaChars (ks.map String.data))

namespace SplitStorage

/-- The Durable Object's `fetch` handler (`src/SplitStorage.ts`): a switch
on `url.pathname` over the sixteen recognized operation selectors, falling
through to a 404 "Not found" response.  Stored-type mismatches (e.g. `/get`
on a key holding a `Set`) are undefined behavior per the spec (§3); on
those paths the model follows `JSON.stringify`'s output where it is
well-defined and otherwise takes the absent branch. -/
def fetch (s : Storage) (r : Request) : Storage × Response :=
  if r.pathname = "/get" then
    -- result = (await this.storage.get<string>(key)) || null
    (s, .ok (some (toResultOrNull (jsOrNull (Storage.get s r.key)))))
  else if r.pathname = "/set" then
    -- reqBody = await request.json<string>(); this.storage.put(key, reqBody)
    match r.body with
    | .str b => (Storage.put s r.key (.str b), .ok .none)
    | _ => (s, .ok .none)
  else if r.pathname = "/getAndSet" then
    -- const getResult = this.storage.get<string>(key);
    -- this.storage.put(key, reqBody); result = (await getResult) || null
    match r.body with
    | .str b =>
        (Storage.put s r.key (.str b),
         .ok (some (toResultOrNull (jsOrNull (Storage.get s r.key)))))
    | _ => (s, .ok (some (toResultOrNull (jsOrNull (Storage.get s r.key)))))
  else if r.pathname = "/del" then
    (Storage.del s r.key, .ok .none)
  else if r.pathname = "/getKeysByPrefix" then
    -- result = Array.from((await this.storage.list({ prefix })).keys())
    (s, .ok (some (.arr (((s.map Prod.fst).filter
      (fun k => k.startsWith r.pfx)).map .str))))
  else if r.pathname = "/getMany" then
    -- const keys = param.split(","); map = await this.storage.get(keys);
    -- result = keys.map(key => map.get(key) || null)
    (s, .ok (some (.arr ((splitComma r.keys).map
      (fun k => toResultOrNull (jsOrNull (Storage.get s k)))))))
  else if r.pathname = "/incr" then
    -- result = await this.storage.get<number>(key);
    -- result = result ? result + 1 : 1; this.storage.put(key, result)
    let v : Int :=
      match jsOrNull (Storage.get s r.key) with
      | some (.num n) => n + 1
      | _ => 1
    (Storage.put s r.key (.num v), .ok (some (.num v)))
  else if r.pathname = "/decr" then
    let v : Int :=
      match jsOrNull (Storage.get s r.key) with
      | some (.num n) => n - 1
      | _ => -1
    (Storage.put s r.key (.num v), .ok (some (.num v)))
  else if r.pathname = "/itemContains" then
    -- result = result && result.has(item) ? true : false
    let b : Bool :=
      match jsOrNull (Storage.get s r.key) with
      | some (.set xs) => xs.contains r.item
      | _ => false
    (s, .ok (some (.boolv b)))
  else if r.pathname = "/addItems" then
    -- result = (await this.storage.get<Set<string>>(key)) || new Set();
    -- for (...) result.add(reqBody[i]); this.storage.put(key, result)
    match r.body with
    | .items its =>
        let cur : List String :=
          match jsOrNull (Storage.get s r.key) with
          | some (.set xs) => xs
          | _ => []
        (Storage.put s r.key (.set (setAddAll cur its)), .ok (some .emptyObj))
    | _ => (s, .ok .none)
  else if r.pathname = "/removeItems" then
    -- result = await this.storage.get<Set<string>>(key);
    -- if (result) { for (...) result.delete(reqBody[i]); put(key, result) }
    match r.body, jsOrNull (Storage.get s r.key) with
    | .items its, some (.set xs) =>
        (Storage.put s r.key (.set (setDelAll xs its)), .ok (some .emptyObj))
    | _, _ => (s, .ok .none)
  else if r.pathname = "/getItems" then
    -- result = Array.from((await this.storage.get(key)) || new Set())
    let xs : List String :=
      match jsOrNull (Storage.get s r.key) with
      | some (.set xs) => xs
      | _ => []
    (s, .ok (some (.arr (xs.map .str))))
  else if r.pathname = "/pushItems" then
    -- no-op: queue operations are deliberately stubbed
    (s, .ok .none)
  else if r.pathname = "/popItems" then
    (s, .ok (some (.arr [])))
  else if r.pathname = "/getItemsCount" then
    (s, .ok (some (.num 0)))
  else if r.pathname = "/deleteAll" then
    ([], .ok .none)
  else
    (s, .notFound)

/-- The sixteen operation selectors of the engine's switch. -/
def recognizedPaths : List String :=
  ["/get", "/set", "/getAndSet", "/del", "/getKeysByPrefix", "/getMany",
   "/incr", "/decr", "/itemContains", "/addItems", "/removeItems",
   "/getItems", "/pushItems", "/popItems", "/getItemsCount", "/deleteAll"]

end SplitStorage

/-- Decoding `response.json<string>()` on a body that is a JSON string or `null`
(every `/get` / `/getAndSet` response). -/
def decodeStr : Response → Option String
  | .ok (some (.str s)) => some s
  | _ => none

/-- Decoding `response.json<number>()` on a body that is a JSON number (every
`/incr` / `/decr` response). -/
def decodeNum : Response → Int
  | .ok (some (.num n)) => n
  | _ => 0

/-- Decoding `response.json<(string|null)[]>()` on a body that is a JSON array of
strings and nulls (every `/getMany` response). -/
def decodeStrOptArr : Response → List (Option String)
  | .ok (some (.arr xs)) =>
      xs.map (fun v => match v with | .str s => some s | _ => none)
  | _ => []

/-- Decoding `response.json<string[]>()` on a body that is a JSON array of strings
(every `/getItems` response). -/
def decodeStrList : Response → List String
  | .ok (some (.arr xs)) =>
      xs.filterMap (fun v => match v with | .str s => some s | _ => none)
  | _ => []

namespace SplitStorageWrapper

/-- Adapter `get(key)`: fetch `/get?key=…`, decode `response.json()`. -/
def get (st : Storage) (key : String) : Storage × Option String :=
  let r := SplitStorage.fetch st { pathname := "/get", key := key }
  (r.1, decodeStr r.2)

/-- Adapter `set(key, value)`: POST the JSON-encoded value to `/set?key=…`
and report `response.ok`. -/
def set (st : Storage) (key value : String) : Storage × Bool :=
  let r := SplitStorage.fetch st
    { pathname := "/set", key := key, body := .str value }
  (r.1, r.2.isOk)

/-- Adapter `getAndSet(key, value)`: POST to `/getAndSet?key=…`, decode the
previous value from the response. -/
def getAndSet (st : Storage) (key value : String) : Storage × Option String :=
  let r := SplitStorage.fetch st
    { pathname := "/getAndSet", key := key, body := .str value }
  (r.1, decodeStr r.2)

/-- Adapter `del(key)`. -/
def del (st : Storage) (key : String) : Storage × Bool :=
  let r := SplitStorage.fetch st { pathname := "/del", key := key }
  (r.1, r.2.isOk)

/-- Adapter `getMany(keys)`: the key list is encoded by `keys.join(",")`
into the single `keys` query parameter; the engine decodes it with
`split(",")`. -/
def getMany (st : Storage) (keys : List String) :
    Storage × List (Option String) :=
  let r := SplitStorage.fetch st
    { pathname := "/getMany", keys := joinComma keys }
  (r.1, decodeStrOptArr r.2)

/-- Adapter `incr(key)`. -/
def incr (st : Storage) (key : String) : Storage × Int :=
  let r := SplitStorage.fetch st { pathname := "/incr", key := key }
  (r.1, decodeNum r.2)

/-- Adapter `decr(key)`. -/
def decr (st : Storage) (key : String) : Storage × Int :=
  let r := SplitStorage.fetch st { pathname := "/decr", key := key }
  (r.1, decodeNum r.2)

/-- Adapter `addItems(key, items)`: POST the JSON-encoded item list; the
response body is ignored (the method returns `void`). -/
def addItems (st : Storage) (key : String) (items : List String) : Storage :=
  (SplitStorage.fetch st
    { pathname := "/addItems", key := key, body := .items items }).1

/-- Adapter `removeItems(key, items)`: POST the JSON-encoded item list; the
response body is ignored (the method returns `void`). -/
def removeItems (st : Storage) (key : String) (items : List String) :
    Storage :=
  (SplitStorage.fetch st
    { pathname := "/removeItems", key := key, body := .items items }).1

/-- Adapter `getItems(key)`. -/
def getItems (st : Storage) (key : String) : Storage × List String :=
  let r := SplitStorage.fetch st { pathname := "/getItems", key := key }
  (r.1, decodeStrList r.2)

/-- Adapter `pushItems(key, items)`: a client-side stub with an empty body;
it does not even contact the engine. -/
def pushItems (st : Storage) (key : String) (items : List String) :
    Storage :=
  st

/-- Adapter `popItems(key, count)`: a client-side stub returning `[]`
without contacting the engine. -/
def popItems (st : Storage) (key : String) (count : Nat) :
    Storage × List String :=
  (st, [])

/-- Adapter `getItemsCount(key)`: a client-side stub returning `0` without
contacting the engine. -/
def getItemsCount (st : Storage) (key : String) : Storage × Nat :=
  (st, 0)

end SplitStorageWrapper

/-! ## Basic lemmas about the storage map -/

@[simp]
lemma Storage.get_put_self (s : Storage) (k : String) (v : StorageValue) :
    Storage.get (Storage.put s k v) k = some v := by
  induction s with
  | nil => simp [Storage.put, Storage.get]
  | cons p t ih =>
      by_cases h : p.1 = k
      · simp [Storage.put, Storage.get, h]
      · simp [Storage.put, Storage.get, h, ih]

lemma Storage.get_put_ne (s : Storage) (k k' : String) (v : StorageValue)
    (h : k' ≠ k) :
    Storage.get (Storage.put s k v) k' = Storage.get s k' := by
  induction s with
  | nil => simp [Storage.put, Storage.get, Ne.symm h]
  | cons p t ih =>
      by_cases hpk : p.1 = k
      · simp [Storage.put, Storage.get, hpk, Ne.symm h]
      · simp only [Storage.put, Storage.get, hpk, if_false]
        by_cases hpk' : p.1 = k'
        · simp [hpk']
        · simp [hpk', ih]

/-! ## The comma encoding of key lists -/

lemma splitCommaChars_ne_nil (cs : List Char) : splitCommaChars cs ≠ [] := by
  induction cs with
  | nil => simp [splitCommaChars]
  | cons c rest ih =>
      simp only [splitCommaChars]
      cases h : splitCommaChars rest with
      | nil => simp
      | cons a t =>
          by_cases hc : c = ',' <;> simp [hc]

lemma splitCommaChars_nocomma (x : List Char) (hx : ',' ∉ x) :
    splitCommaChars x = [x] := by
  induction x with
  | nil => rfl
  | cons c rest ih =>
      have hc : c ≠ ',' := fun h => hx (h ▸ List.mem_cons_self c rest)
      have hr : ',' ∉ rest := fun h => hx (List.mem_cons_of_mem c h)
      simp [splitCommaChars, ih hr, hc]

lemma splitCommaChars_append (x : List Char) (hx : ',' ∉ x)
    (rest : List Char) :
    splitCommaChars (x ++ ',' :: rest) = x :: splitCommaChars rest := by
  induction x with
  | nil =>
      simp only [List.nil_append, splitCommaChars]
      cases h : splitCommaChars rest with
      | nil => exact absurd h (splitCommaChars_ne_nil rest)
      | cons a t => simp
  | cons c x' ih =>
      have hc : c ≠ ',' := fun h => hx (h ▸ List.mem_cons_self c x')
      have hx' : ',' ∉ x' := fun h => hx (List.mem_cons_of_mem c h)
      simp [splitCommaChars, ih hx', hc]

lemma split_join_chars (xs : List (List Char)) (hne : xs ≠ [])
    (hc : ∀ x ∈ xs, ',' ∉ x) :
    splitCommaChars (joinCommaChars xs) = xs := by
  induction xs with
  | nil => exact absurd rfl hne
  | cons x t ih =>
      cases t with
      | nil =>
          simpa [joinCommaChars] using
            splitCommaChars_nocomma x (hc x (List.mem_cons_self x []))
      | cons y t' =>
          have hx : ',' ∉ x := hc x (List.mem_cons_self x _)
          have hrest : ∀ z ∈ y :: t', ',' ∉ z :=
            fun z hz => hc z (List.mem_cons_of_mem x hz)
          simp [joinCommaChars, splitCommaChars_append x hx,
            ih (by simp) hrest]

lemma String.mk_data_eq (s : String) : String.mk s.data = s := rfl

lemma splitComma_joinComma (ks : List String) (hne : ks ≠ [])
    (hc : ∀ k ∈ ks, ',' ∉ k.data) :
    splitComma (joinComma ks) = ks := by
  have h1 : (ks.map String.data) ≠ [] := by
    intro h; exact hne (List.map_eq_nil_iff.mp h)
  have h2 : ∀ x ∈ ks.map String.data, ',' ∉ x := by
    intro x hx
    rcases List.mem_map.mp hx with ⟨k, hk, rfl⟩
    exact hc k hk
  unfold splitComma joinComma
  rw [show (String.mk (joinCommaChars (ks.map String.data))).data
        = joinCommaChars (ks.map String.data) from rfl,
      split_join_chars _ h1 h2, List.map_map]
  have hid : (String.mk ∘ String.data) = id := funext fun s => rfl
  rw [hid, List.map_id]

/-! ## How each adapter operation evaluates -/

lemma wrapper_set_eq (st : Storage) (k v : String) :
    SplitStorageWrapper.set st k v = (Storage.put st k (.str v), true) := rfl

lemma wrapper_get_eq (st : Storage) (k : String) :
    SplitStorageWrapper.get st k =
      (st, decodeStr (.ok (some (toResultOrNull
        (jsOrNull (Storage.get st k)))))) := rfl

lemma wrapper_get_absent (st : Storage) (k : String)
    (h : Storage.get st k = none) :
    SplitStorageWrapper.get st k = (st, none) := by
  rw [wrapper_get_eq, h]; rfl

lemma wrapper_get_str (st : Storage) (k v : String)
    (h : Storage.get st k = some (.str v)) (hv : v ≠ "") :
    SplitStorageWrapper.get st k = (st, some v) := by
  rw [wrapper_get_eq, h]
  simp [jsOrNull, StorageValue.truthy, hv, toResultOrNull,
    StorageValue.toResult, decodeStr]

lemma wrapper_getAndSet_eq (st : Storage) (k v : String) :
    SplitStorageWrapper.getAndSet st k v =
      (Storage.put st k (.str v),
       decodeStr (.ok (some (toResultOrNull
         (jsOrNull (Storage.get st k)))))) := rfl

lemma wrapper_getAndSet_absent (st : Storage) (k v : String)
    (h : Storage.get st k = none) :
    SplitStorageWrapper.getAndSet st k v = (Storage.put st k (.str v), none) := by
  rw [wrapper_getAndSet_eq, h]; rfl

lemma wrapper_getAndSet_str (st : Storage) (k v w : String)
    (h : Storage.get st k = some (.str w)) (hw : w ≠ "") :
    SplitStorageWrapper.getAndSet st k v =
      (Storage.put st k (.str v), some w) := by
  rw [wrapper_getAndSet_eq, h]
  simp [jsOrNull, StorageValue.truthy, hw, toResultOrNull,
    StorageValue.toResult, decodeStr]

lemma wrapper_incr_absent (st : Storage) (k : String)
    (h : Storage.get st k = none) :
    SplitStorageWrapper.incr st k = (Storage.put st k (.num 1), 1) := by
  show (Storage.put st k (.num (match jsOrNull (Storage.get st k) with
          | some (.num n) => n + 1 | _ => 1)),
        decodeNum (.ok (some (.num (match jsOrNull (Storage.get st k) with
          | some (.num n) => n + 1 | _ => 1))))) = _
  rw [h]; rfl

lemma wrapper_incr_num (st : Storage) (k : String) (m : Int)
    (h : Storage.get st k = some (.num m)) (hm : m ≠ 0) :
    SplitStorageWrapper.incr st k = (Storage.put st k (.num (m + 1)), m + 1) := by
  show (Storage.put st k (.num (match jsOrNull (Storage.get st k) with
          | some (.num n) => n + 1 | _ => 1)),
        decodeNum (.ok (some (.num (match jsOrNull (Storage.get st k) with
          | some (.num n) => n + 1 | _ => 1))))) = _
  rw [h]
  simp [jsOrNull, StorageValue.truthy, hm, decodeNum]

lemma wrapper_decr_absent (st : Storage) (k : String)
    (h : Storage.get st k = none) :
    SplitStorageWrapper.decr st k = (Storage.put st k (.num (-1)), -1) := by
  show (Storage.put st k (.num (match jsOrNull (Storage.get st k) with
          | some (.num n) => n - 1 | _ => -1)),
        decodeNum (.ok (some (.num (match jsOrNull (Storage.get st k) with
          | some (.num n) => n - 1 | _ => -1))))) = _
  rw [h]; rfl

lemma wrapper_decr_num (st : Storage) (k : String) (m : Int)
    (h : Storage.get st k = some (.num m)) (hm : m ≠ 0) :
    SplitStorageWrapper.decr st k = (Storage.put st k (.num (m - 1)), m - 1) := by
  show (Storage.put st k (.num (match jsOrNull (Storage.get st k) with
          | some (.num n) => n - 1 | _ => -1)),
        decodeNum (.ok (some (.num (match jsOrNull (Storage.get st k) with
          | some (.num n) => n - 1 | _ => -1))))) = _
  rw [h]
  simp [jsOrNull, StorageValue.truthy, hm, decodeNum]

/-! ## Sequences of increment / decrement calls -/

/-- The states and results of `n` successive adapter `incr(k)` calls,
collected in call order. -/
def incrIter : Storage → String → Nat → Storage × List Int
  | st, _, 0 => (st, [])
  | st, k, n + 1 =>
      let r := SplitStorageWrapper.incr st k
      let rest := incrIter r.1 k n
      (rest.1, r.2 :: rest.2)

/-- The states and results of `n` successive adapter `decr(k)` calls,
collected in call order. -/
def decrIter : Storage → String → Nat → Storage × List Int
  | st, _, 0 => (st, [])
  | st, k, n + 1 =>
      let r := SplitStorageWrapper.decr st k
      let rest := decrIter r.1 k n
      (rest.1, r.2 :: rest.2)

lemma incrIter_from_num (n : Nat) (st : Storage) (k : String) (m : Int)
    (hm : 1 ≤ m) (h : Storage.get st k = some (.num m)) :
    (incrIter st k n).2 = (List.range n).map (fun i : Nat => m + 1 + (i : Int)) := by
  induction n generalizing st m with
  | zero => simp [incrIter]
  | succ n ih =>
      have hm0 : m ≠ 0 := by omega
      rw [incrIter, wrapper_incr_num st k m h hm0]
      dsimp only
      rw [ih _ (m + 1) (by omega) (Storage.get_put_self st k _),
        List.range_succ_eq_map, List.map_cons, List.map_map]
      refine congrArg₂ List.cons (by push_cast; ring) ?_
      apply List.map_congr_left
      intro i _
      simp only [Function.comp_apply]
      push_cast
      ring

lemma decrIter_from_num (n : Nat) (st : Storage) (k : String) (m : Int)
    (hm : m ≤ -1) (h : Storage.get st k = some (.num m)) :
    (decrIter st k n).2 = (List.range n).map (fun i : Nat => m - 1 - (i : Int)) := by
  induction n generalizing st m with
  | zero => simp [decrIter]
  | succ n ih =>
      have hm0 : m ≠ 0 := by omega
      rw [decrIter, wrapper_decr_num st k m h hm0]
      dsimp only
      rw [ih _ (m - 1) (by omega) (Storage.get_put_self st k _),
        List.range_succ_eq_map, List.map_cons, List.map_map]
      refine congrArg₂ List.cons (by push_cast; ring) ?_
      apply List.map_congr_left
      intro i _
      simp only [Function.comp_apply]
      push_cast
      ring

lemma incrIter_from_absent (st : Storage) (k : String) (n : Nat)
    (habs : Storage.get st k = none) :
    (incrIter st k n).2 = (List.range n).map (fun i : Nat => (i : Int) + 1) := by
  cases n with
  | zero => simp [incrIter]
  | succ n =>
      rw [incrIter, wrapper_incr_absent st k habs]
      dsimp only
      rw [incrIter_from_num n _ k 1 le_rfl (Storage.get_put_self st k _),
        List.range_succ_eq_map, List.map_cons, List.map_map]
      refine congrArg₂ List.cons (by norm_num) ?_
      apply List.map_congr_left
      intro i _
      simp only [Function.comp_apply]
      push_cast
      ring

lemma decrIter_from_absent (st : Storage) (k : String) (n : Nat)
    (habs : Storage.get st k = none) :
    (decrIter st k n).2 = (List.range n).map (fun i : Nat => -1 - (i : Int)) := by
  cases n with
  | zero => simp [decrIter]
  | succ n =>
      rw [decrIter, wrapper_decr_absent st k habs]
      dsimp only
      rw [decrIter_from_num n _ k (-1) le_rfl (Storage.get_put_self st k _),
        List.range_succ_eq_map, List.map_cons, List.map_map]
      refine congrArg₂ List.cons (by norm_num) ?_
      apply List.map_congr_left
      intro i _
      simp only [Function.comp_apply]
      push_cast
      ring

/-! ## Set and list operations of the adapter -/

lemma wrapper_addItems_absent (st : Storage) (k : String) (its : List String)
    (h : Storage.get st k = none) :
    SplitStorageWrapper.addItems st k its
      = Storage.put st k (.set (setAddAll [] its)) := by
  show Storage.put st k (.set (setAddAll
      (match jsOrNull (Storage.get st k) with
       | some (.set xs) => xs | _ => []) its)) = _
  rw [h]; rfl

lemma wrapper_addItems_set (st : Storage) (k : String) (xs its : List String)
    (h : Storage.get st k = some (.set xs)) :
    SplitStorageWrapper.addItems st k its
      = Storage.put st k (.set (setAddAll xs its)) := by
  show Storage.put st k (.set (setAddAll
      (match jsOrNull (Storage.get st k) with
       | some (.set xs) => xs | _ => []) its)) = _
  rw [h]; rfl

lemma decodeStrList_strs (xs : List String) :
    decodeStrList (.ok (some (.arr (xs.map .str)))) = xs := by
  induction xs with
  | nil => rfl
  | cons x t ih =>
      simp only [decodeStrList, List.map_cons, List.filterMap_cons] at ih ⊢
      rw [ih]

lemma wrapper_getItems_set (st : Storage) (k : String) (xs : List String)
    (h : Storage.get st k = some (.set xs)) :
    SplitStorageWrapper.getItems st k = (st, xs) := by
  have e : SplitStorageWrapper.getItems st k
      = (st, decodeStrList (.ok (some (.arr
        ((match jsOrNull (Storage.get st k) with
          | some (.set ys) => ys | _ => []).map .str))))) := rfl
  rw [e, h]
  show (st, decodeStrList (.ok (some (.arr (xs.map .str))))) = (st, xs)
  rw [decodeStrList_strs]

lemma wrapper_getMany_eq (st : Storage) (keys : List String) :
    SplitStorageWrapper.getMany st keys =
      (st, (splitComma (joinComma keys)).map
        (fun k => decodeStr (Response.ok (some (toResultOrNull
          (jsOrNull (Storage.get st k))))))) := by
  show (st, ((splitComma (joinComma keys)).map
      (fun k => toResultOrNull (jsOrNull (Storage.get st k)))).map
      (fun v => match v with | .str s => some s | _ => none)) = _
  rw [List.map_map]
  refine congrArg (fun l => (st, l)) ?_
  apply List.map_congr_left
  intro k hk
  rcases hr : toResultOrNull (jsOrNull (Storage.get st k)) with _ | s | n | b | _ | xs <;>
    simp [Function.comp, decodeStr, hr]

/-! ## Dispatch on the operation selector -/

lemma fetch_not_notFound (s : Storage) (r : Request)
    (h : r.pathname ∈ SplitStorage.recognizedPaths) :
    (SplitStorage.fetch s r).2 ≠ Response.notFound := by
  simp only [SplitStorage.recognizedPaths, List.mem_cons,
    List.not_mem_nil, or_false] at h
  rcases h with h|h|h|h|h|h|h|h|h|h|h|h|h|h|h|h <;>
    cases hb : r.body <;>
      simp [SplitStorage.fetch, h, hb] <;>
        (split <;> simp)

lemma fetch_default (s : Storage) (r : Request)
    (h : r.pathname ∉ SplitStorage.recognizedPaths) :
    SplitStorage.fetch s r = (s, Response.notFound) := by
  simp only [SplitStorage.recognizedPaths, List.mem_cons,
    List.not_mem_nil, or_false, not_or] at h
  obtain ⟨h1, h2, h3, h4, h5, h6, h7, h8, h9, h10, h11, h12, h13, h14, h15, h16⟩ := h
  simp [SplitStorage.fetch, h1, h2, h3, h4, h5, h6, h7, h8,
    h9, h10, h11, h12, h13, h14, h15, h16]

/-! ## The claims -/

/-- C1, counterexample: after `set(k, "")` the store holds the empty
string at `k`, yet `get(k)` returns the absent value `null` — the engine's
`|| null` coercion confuses a stored empty string with absence, so the
claim as stated is false. -/
theorem c1_counterexample :
    Storage.get (SplitStorageWrapper.set [] "k" "").1 "k"
        = some (.str "") ∧
    (SplitStorageWrapper.get (SplitStorageWrapper.set [] "k" "").1 "k").2
        = none :=
  ⟨rfl, rfl⟩

/-- C1, amended: `get` on a never-written key returns the absent value
`null`, and a stored *nonempty* string is returned as itself, distinct from
the absent value; but after `set(k, "")` the call `get(k)` also returns the
absent value, so absence is not distinguishable from a stored empty
string. -/
theorem c1_get_absent (st : Storage) (k v : String)
    (habs : Storage.get st k = none) (hv : v ≠ "") :
    (SplitStorageWrapper.get st k).2 = none ∧
    (SplitStorageWrapper.get (SplitStorageWrapper.set st k v).1 k).2
        = some v ∧
    (SplitStorageWrapper.get (SplitStorageWrapper.set st k "").1 k).2
        = none := by
  refine ⟨?_, ?_, ?_⟩
  · rw [wrapper_get_absent st k habs]
  · rw [wrapper_set_eq,
      wrapper_get_str _ k v (Storage.get_put_self st k _) hv]
  · rw [wrapper_set_eq, wrapper_get_eq, Storage.get_put_self st k _]
    rfl

/-- C1, witness at a concrete input. -/
theorem c1_get_absent_witness :
    (SplitStorageWrapper.get [] "k").2 = none ∧
    (SplitStorageWrapper.get (SplitStorageWrapper.set [] "k" "on").1 "k").2
        = some "on" ∧
    (SplitStorageWrapper.get (SplitStorageWrapper.set [] "k" "").1 "k").2
        = none :=
  c1_get_absent [] "k" "on" rfl (by decide)

/-- C2, counterexample: `set(k, "")` then `get(k)` returns `null`, not the
stored value `""`, so the claim quantified over every string value is
false. -/
theorem c2_counterexample :
    (SplitStorageWrapper.get (SplitStorageWrapper.set [] "k" "").1 "k").2
      ≠ some "" := by
  decide

/-- C2, amended: for every nonempty value v, `set(k, v)` followed by
`get(k)` (with no intervening operation on k) returns v; for `v = ""` the
read returns the absent value instead. -/
theorem c2_set_get (st : Storage) (k v : String) (hv : v ≠ "") :
    (SplitStorageWrapper.get (SplitStorageWrapper.set st k v).1 k).2
      = some v := by
  rw [wrapper_set_eq,
    wrapper_get_str _ k v (Storage.get_put_self st k _) hv]

/-- C2, witness at a concrete input. -/
theorem c2_set_get_witness :
    (SplitStorageWrapper.get
      (SplitStorageWrapper.set [] "flag:on" "true").1 "flag:on").2
      = some "true" :=
  c2_set_get [] "flag:on" "true" (by decide)

/-- C3, counterexample: after `set(k, "")`, the call `getAndSet(k, v2)`
returns the absent value `null`, not the previously stored `""`, so the
claim quantified over every pair of string values is false. -/
theorem c3_counterexample :
    (SplitStorageWrapper.getAndSet
      (SplitStorageWrapper.set [] "k" "").1 "k" "v2").2 ≠ some "" := by
  decide

/-- C3, amended: for every *nonempty* v1, after `set(k, v1)` a call
`getAndSet(k, v2)` returns v1 and leaves the store holding v2 at k; and
`getAndSet` on a never-written key returns the absent value and leaves the
new value stored.  (For v1 = "" the call returns the absent value.) -/
theorem c3_getAndSet (st : Storage) (k v₁ v₂ : String)
    (hv₁ : v₁ ≠ "") (habs : Storage.get st k = none) :
    ((SplitStorageWrapper.getAndSet
        (SplitStorageWrapper.set st k v₁).1 k v₂).2 = some v₁ ∧
     Storage.get (SplitStorageWrapper.getAndSet
        (SplitStorageWrapper.set st k v₁).1 k v₂).1 k = some (.str v₂)) ∧
    ((SplitStorageWrapper.getAndSet st k v₂).2 = none ∧
     Storage.get (SplitStorageWrapper.getAndSet st k v₂).1 k
        = some (.str v₂)) := by
  refine ⟨⟨?_, ?_⟩, ?_, ?_⟩
  · rw [wrapper_set_eq,
      wrapper_getAndSet_str _ k v₂ v₁ (Storage.get_put_self st k _) hv₁]
  · rw [wrapper_set_eq,
      wrapper_getAndSet_str _ k v₂ v₁ (Storage.get_put_self st k _) hv₁]
    exact Storage.get_put_self _ k _
  · rw [wrapper_getAndSet_absent st k v₂ habs]
  · rw [wrapper_getAndSet_absent st k v₂ habs]
    exact Storage.get_put_self st k _

/-- C3, witness at a concrete input. -/
theorem c3_getAndSet_witness :
    ((SplitStorageWrapper.getAndSet
        (SplitStorageWrapper.set [] "k" "a").1 "k" "b").2 = some "a" ∧
     Storage.get (SplitStorageWrapper.getAndSet
        (SplitStorageWrapper.set [] "k" "a").1 "k" "b").1 "k"
        = some (.str "b")) ∧
    ((SplitStorageWrapper.getAndSet [] "k" "b").2 = none ∧
     Storage.get (SplitStorageWrapper.getAndSet [] "k" "b").1 "k"
        = some (.str "b")) :=
  c3_getAndSet [] "k" "a" "b" (by decide) rfl

/-- C4: `increment` on an absent key returns 1 and stores 1; n successive
`increment(k)` calls from the absent state return 1, 2, …, n in order (the
i-th call returns i); and three successive `decrement(k)` calls from the
absent state return -1, -2, -3 in order. -/
theorem c4_incr_decr (st : Storage) (k : String) (n : Nat)
    (habs : Storage.get st k = none) :
    (SplitStorageWrapper.incr st k).2 = 1 ∧
    Storage.get (SplitStorageWrapper.incr st k).1 k = some (.num 1) ∧
    (incrIter st k n).2
        = (List.range n).map (fun i : Nat => (i : Int) + 1) ∧
    (decrIter st k 3).2 = [-1, -2, -3] := by
  refine ⟨?_, ?_, ?_, ?_⟩
  · rw [wrapper_incr_absent st k habs]
  · rw [wrapper_incr_absent st k habs]
    exact Storage.get_put_self st k _
  · exact incrIter_from_absent st k n habs
  · rw [decrIter_from_absent st k 3 habs]
    decide

/-- C4, witness at a concrete input. -/
theorem c4_incr_decr_witness :
    (SplitStorageWrapper.incr [] "c").2 = 1 ∧
    Storage.get (SplitStorageWrapper.incr [] "c").1 "c" = some (.num 1) ∧
    (incrIter [] "c" 3).2
        = (List.range 3).map (fun i : Nat => (i : Int) + 1) ∧
    (decrIter [] "c" 3).2 = [-1, -2, -3] :=
  c4_incr_decr [] "c" 3 rfl

/-- C5, counterexample: when the value stored at the first key is the
empty string, `getMany` returns the absent value at position 1 instead of
the stored value, so the claim quantified over every stored string value is
false. -/
theorem c5_counterexample :
    (SplitStorageWrapper.getMany
        [("a", .str ""), ("c", .str "y")] ["a", "b", "c"]).2
      ≠ [some "", none, some "y"] := by
  decide

/-- C5, amended: for keys k1, k2, k3 that contain no comma, where k1 and
k3 hold *nonempty* stored string values and k2 is absent,
`getMany([k1, k2, k3])` returns the 3-element list
`[v1, absent, v3]`, positionally aligned with the input. -/
theorem c5_getMany (st : Storage) (k₁ k₂ k₃ v₁ v₃ : String)
    (h₁ : Storage.get st k₁ = some (.str v₁)) (hv₁ : v₁ ≠ "")
    (h₂ : Storage.get st k₂ = none)
    (h₃ : Storage.get st k₃ = some (.str v₃)) (hv₃ : v₃ ≠ "")
    (hc₁ : ',' ∉ k₁.data) (hc₂ : ',' ∉ k₂.data) (hc₃ : ',' ∉ k₃.data) :
    (SplitStorageWrapper.getMany st [k₁, k₂, k₃]).2
      = [some v₁, none, some v₃] := by
  rw [wrapper_getMany_eq]
  have hmem : ∀ k ∈ [k₁, k₂, k₃], ',' ∉ k.data := by
    intro k hk
    simp only [List.mem_cons, List.not_mem_nil, or_false] at hk
    rcases hk with rfl | rfl | rfl <;> assumption
  rw [splitComma_joinComma [k₁, k₂, k₃] (by simp) hmem]
  dsimp only
  rw [List.map_cons, List.map_cons, List.map_cons, List.map_nil,
    h₁, h₂, h₃]
  simp [jsOrNull, StorageValue.truthy, hv₁, hv₃, toResultOrNull,
    StorageValue.toResult, decodeStr]

/-- C5, witness at a concrete input. -/
theorem c5_getMany_witness :
    (SplitStorageWrapper.getMany
        [("a", .str "x"), ("c", .str "y")] ["a", "b", "c"]).2
      = [some "x", none, some "y"] :=
  c5_getMany [("a", .str "x"), ("c", .str "y")] "a" "b" "c" "x" "y"
    rfl (by decide) rfl rfl (by decide) (by decide) (by decide) (by decide)

/-- C6: starting from an absent key, `setAdd(k, [a, b])` then
`setAdd(k, [a, c])` then `setMembers(k)` yields exactly the set {a, b, c}
for distinct a, b, c: re-adding the already-present `a` changes nothing and
the result holds each member exactly once. -/
theorem c6_setAdd (st : Storage) (k a b c : String)
    (habs : Storage.get st k = none)
    (hab : a ≠ b) (hac : a ≠ c) (hbc : b ≠ c) :
    ((SplitStorageWrapper.getItems
        (SplitStorageWrapper.addItems
          (SplitStorageWrapper.addItems st k [a, b]) k [a, c]) k).2).Nodup ∧
    ∀ x, x ∈ (SplitStorageWrapper.getItems
        (SplitStorageWrapper.addItems
          (SplitStorageWrapper.addItems st k [a, b]) k [a, c]) k).2
      ↔ (x = a ∨ x = b ∨ x = c) := by
  have e₁ : SplitStorageWrapper.addItems st k [a, b]
      = Storage.put st k (.set [a, b]) := by
    rw [wrapper_addItems_absent st k [a, b] habs]
    simp [setAddAll, setAddOne, Ne.symm hab]
  have e₂ : SplitStorageWrapper.addItems
        (Storage.put st k (.set [a, b])) k [a, c]
      = Storage.put (Storage.put st k (.set [a, b])) k (.set [a, b, c]) := by
    rw [wrapper_addItems_set _ k [a, b] [a, c]
      (Storage.get_put_self st k _)]
    simp [setAddAll, setAddOne, Ne.symm hac, Ne.symm hbc]
  rw [e₁, e₂, wrapper_getItems_set _ k [a, b, c]
    (Storage.get_put_self _ k _)]
  refine ⟨by simp [hab, hac, hbc], ?_⟩
  intro x
  simp

/-- C6, witness at a concrete input. -/
theorem c6_setAdd_witness :
    ((SplitStorageWrapper.getItems
        (SplitStorageWrapper.addItems
          (SplitStorageWrapper.addItems [] "s" ["a", "b"]) "s" ["a", "c"])
        "s").2).Nodup ∧
    ∀ x, x ∈ (SplitStorageWrapper.getItems
        (SplitStorageWrapper.addItems
          (SplitStorageWrapper.addItems [] "s" ["a", "b"]) "s" ["a", "c"])
        "s").2
      ↔ (x = "a" ∨ x = "b" ∨ x = "c") :=
  c6_setAdd [] "s" "a" "b" "c" rfl (by decide) (by decide) (by decide)

/-- C7: `setRemove` on an absent key is a no-op: the engine answers with a
success response carrying no body and leaves the store unchanged, and the
adapter call leaves the store unchanged. -/
theorem c7_removeItems_absent (st : Storage) (k : String)
    (items : List String) (habs : Storage.get st k = none) :
    SplitStorage.fetch st
        { pathname := "/removeItems", key := k, body := .items items }
      = (st, .ok .none) ∧
    SplitStorageWrapper.removeItems st k items = st := by
  constructor
  · simp [SplitStorage.fetch, habs, jsOrNull]
  · simp [SplitStorageWrapper.removeItems, SplitStorage.fetch, habs,
      jsOrNull]

/-- C7, witness at a concrete input. -/
theorem c7_removeItems_absent_witness :
    SplitStorage.fetch []
        { pathname := "/removeItems", key := "k", body := .items ["a"] }
      = ([], .ok .none) ∧
    SplitStorageWrapper.removeItems [] "k" ["a"] = [] :=
  c7_removeItems_absent [] "k" ["a"] rfl

/-- C8: a request whose pathname is not one of the sixteen recognized
operation selectors gets the "not found" response and leaves the store
unchanged; a request for any recognized selector never gets the "not
found" response (absence of data is reported inside a success
response). -/
theorem c8_dispatch (s : Storage) (r : Request) :
    (SplitStorage.fetch s r
        = if r.pathname ∈ SplitStorage.recognizedPaths
          then SplitStorage.fetch s r
          else (s, Response.notFound)) ∧
    ((SplitStorage.fetch s r).2 = Response.notFound
        ↔ r.pathname ∉ SplitStorage.recognizedPaths) := by
  by_cases h : r.pathname ∈ SplitStorage.recognizedPaths
  · refine ⟨by rw [if_pos h], ?_⟩
    simp only [h, not_true_eq_false, iff_false]
    exact fetch_not_notFound s r h
  · refine ⟨by rw [if_neg h, fetch_default s r h], ?_⟩
    simp [fetch_default s r h, h]

/-- C9: the queue operations are permanent stubs, in every store state:
the engine treats `/pushItems` as a no-op with an empty success response,
answers `/popItems` with the empty list and `/getItemsCount` with 0, and
the adapter's `pushItems`, `popItems` and `getItemsCount` return without
contacting the engine, yielding nothing, the empty list and 0
respectively. -/
theorem c9_queue_stubs (st : Storage) (k pk : String)
    (items : List String) (count : Nat) (body : ReqBody) :
    SplitStorage.fetch st { pathname := "/pushItems", key := pk, body := body }
      = (st, .ok .none) ∧
    SplitStorage.fetch st { pathname := "/popItems", key := pk, body := body }
      = (st, .ok (some (.arr []))) ∧
    SplitStorage.fetch st
        { pathname := "/getItemsCount", key := pk, body := body }
      = (st, .ok (some (.num 0))) ∧
    SplitStorageWrapper.pushItems st k items = st ∧
    SplitStorageWrapper.popItems st k count = (st, []) ∧
    SplitStorageWrapper.getItemsCount st k = (st, 0) :=
  ⟨rfl, rfl, rfl, rfl, rfl, rfl⟩

/-- C10: the adapter encodes the key list of `getMany` by joining with a
comma and the engine splits on commas, so a key containing a comma is
decoded as two keys: for the single-key list `["a,b"]` the decoded list is
`["a", "b"]`, which differs from the supplied list, and the returned list
has 2 elements for a 1-element input, breaking positional alignment. -/
theorem c10_comma_encoding :
    splitComma (joinComma ["a,b"]) = ["a", "b"] ∧
    splitComma (joinComma ["a,b"]) ≠ ["a,b"] ∧
    (SplitStorageWrapper.getMany
        [("a", .str "x"), ("b", .str "y")] ["a,b"]).2
      = [some "x", some "y"] ∧
    (SplitStorageWrapper.getMany
        [("a", .str "x"), ("b", .str "y")] ["a,b"]).2.length
      > (["a,b"] : List String).length := by
  refine ⟨by decide, by decide, by decide, by decide⟩
